import Mathlib

/-!
# Verification of the traefik-umami-feeder event pipeline

Shallow embedding of the core of the repository (files `umami_worker.go`,
`umami_websites.go`, and the unnamed helper file containing
`parseDomainFromHost`): the request matcher, the site resolver, the bounded
event queue, the batch dispatcher, and the connection/retry state machine.

External collaborators (the Go standard library's `netip` parsing, `regexp`
compilation/matching, and the HTTP transport) are modelled as explicit
parameters ("oracles"), exactly as the spec scopes them out; everything the
repository itself computes is translated directly from the Go source.
-/

namespace TraefikUmamiFeeder

/-! ## Go string helpers

Go strings are modelled as Lean `String`s (sequences of runes). Only the
ASCII fragment of Go's case folding is relevant to the repository's inputs
(hostnames); `strings.EqualFold` is modelled as equality after rune-wise
lowercasing, which agrees with Go on ASCII. -/

/-- `strings.ToLower`, rune-wise (ASCII-faithful). -/
def goToLower (s : String) : String :=
  ⟨s.data.map Char.toLower⟩

/-- `strings.EqualFold`: case-insensitive equality (rune-wise folding). -/
def goEqualFold (s t : String) : Bool :=
  goToLower s == goToLower t

/-- Whether `sub` occurs at the head of `s`. -/
def charsStartWith : List Char → List Char → Bool
  | _, [] => true
  | [], _ :: _ => false
  | c :: cs, d :: ds => c == d && charsStartWith cs ds

/-- Whether `sub` occurs contiguously somewhere in `s`. -/
def charsContain (s sub : List Char) : Bool :=
  match s with
  | [] => sub.isEmpty
  | _ :: cs => charsStartWith s sub || charsContain cs sub

/-- `strings.Contains`. -/
def goContains (s sub : String) : Bool :=
  charsContain s.data sub.data

example : goToLower "LOCALHOST" = "localhost" := by decide
example : goEqualFold "LocalHost" "localhost" = true := by decide
example : goEqualFold "localhost:8080" "localhost" = false := by decide
example : goContains "Mozilla Googlebot x" "Googlebot" = true := by decide

/-- Go `strings.TrimSpace` (ASCII whitespace model). -/
def goTrimSpace (s : String) : String := s.trim

/-- `strings.Split(s, sep)[0]`: the run of characters before the first
separator (the whole string when the separator does not occur). -/
def goSplitFirst (s : String) (sep : Char) : String :=
  ⟨s.data.takeWhile (· != sep)⟩

/-- `strings.TrimSuffix(s, ".")`: remove one trailing dot when present. -/
def goTrimDotSuffix (s : String) : String :=
  if s.data.getLast? == some '.' then ⟨s.data.dropLast⟩ else s

/-- `parseDomainFromHost` (helper file): strip a port, strip one trailing
dot, lowercase. -/
def parseDomainFromHost (host : String) : String :=
  let host := if goContains host ":" then goSplitFirst host ':' else host
  let host := goTrimDotSuffix host
  goToLower host

example : parseDomainFromHost "Example.COM:8080" = "example.com" := by decide
example : parseDomainFromHost "localhost." = "localhost" := by decide

/-- A character the `parseAcceptLanguage` regex class `[a-zA-Z\-]` accepts. -/
def isLangChar (c : Char) : Bool :=
  ('a' ≤ c && c ≤ 'z') || ('A' ≤ c && c ≤ 'Z') || c == '-'

/-- `parseAcceptLanguage` (helper file): the regex
`([a-zA-Z\-]+)(?:;q=\d\.\d)?(?:,\s)?` applied with `FindAllStringSubmatch`
returns, as first capture of the first match, the first maximal run of
letters and dashes; the empty string when there is no such run. -/
def parseAcceptLanguage (s : String) : String :=
  ⟨(s.data.dropWhile (fun c => !isLangChar c)).takeWhile isLangChar⟩

example : parseAcceptLanguage "en-US;q=0.9, fr" = "en-US" := by decide
example : parseAcceptLanguage "" = "" := by decide

/-! ## Data model -/

/-- A JSON-able value stored in an event's auxiliary `Data` map
(`map[string]any` in Go; the program only ever stores header strings and
the integer status code). -/
inductive DataVal where
  | str (s : String)
  | int (n : Int)
deriving DecidableEq, Repr

/-- `UmamiEvent` (umami_worker.go lines 11–24). -/
structure UmamiEvent where
  website   : String
  hostname  : String
  language  : String
  referrer  : String
  url       : String
  ip        : String
  userAgent : String
  timestamp : Int
  data      : List (String × DataVal)
deriving DecidableEq, Repr

/-- `SendBody` (umami_worker.go lines 26–29). -/
structure SendBody where
  payload : UmamiEvent
  type    : String
deriving DecidableEq, Repr

/-- The slice of an `*http.Request` the middleware reads. `urlString` is
`req.URL.String()` and `urlPath` is `req.URL.Path`. -/
structure Request where
  host       : String
  urlString  : String
  urlPath    : String
  headers    : List (String × String)
  remoteAddr : String
deriving DecidableEq, Repr

/-- `req.Header.Get(k)`: the value for `k`, or `""` when absent. -/
def Request.headerGet (req : Request) (k : String) : String :=
  match req.headers.lookup k with
  | some v => v
  | none => ""

/-- `Website` (umami_websites.go lines 17–23); `CreatedAt` is unused by the
program logic and omitted. -/
structure Website where
  id     : String
  name   : String
  teamId : String
  domain : String
deriving DecidableEq, Repr

/-- The `UmamiFeeder` fields the verified core reads. Compiled
`regexp.Regexp` and `netip.Prefix` values live in the opaque parameter
types `Re` and `Pfx`; their standard-library semantics are supplied as
oracles (`NetOracles`). -/
structure UmamiFeeder (Pfx Re : Type) where
  isEnabled         : Bool
  queueSize         : Nat
  batchSize         : Nat
  batchMaxWait      : Nat
  websites          : List (String × String)
  createNewWebsites : Bool
  trackErrors       : Bool
  trackAllResources : Bool
  trackExtensions   : List String
  ignoreHosts       : List String
  ignoreUserAgents  : List String
  ignoreRegexps     : List Re
  ignorePrefixes    : List Pfx
  headerIp          : String
  captureHeaders    : List (String × String)

/-- Semantics of the standard-library collaborators (`net/netip` address
parsing, prefix membership, `regexp` matching), which the spec scopes out
of the core; modelled as oracle functions over opaque types. -/
structure NetOracles (Addr Pfx Re : Type) where
  parseAddr   : String → Option Addr
  pfxContains : Pfx → Addr → Bool
  reMatch     : Re → String → Bool

/-! ## Matcher (`shouldTrackRequest`, `shouldTrackResource`, `shouldTrack`,
`shouldTrackStatus`, umami_worker.go lines 461–571)

Each early-`return false` block of `shouldTrackRequest` is translated as one
predicate; the function is their sequential conjunction. -/

variable {Addr Pfx Re : Type}

/-- First block of `shouldTrackRequest` (lines 462–469): the raw `req.Host`
is compared with `strings.EqualFold` against each entry of `ignoreHosts`. -/
def hostIgnored (h : UmamiFeeder Pfx Re) (req : Request) : Bool :=
  h.ignoreHosts.length > 0 && h.ignoreHosts.any (fun d => goEqualFold req.host d)

/-- The client-IP string of the second block (lines 472–475): the configured
header when non-empty, otherwise the connection's remote address. -/
def requestIpOf (h : UmamiFeeder Pfx Re) (req : Request) : String :=
  if req.headerGet h.headerIp != "" then req.headerGet h.headerIp else req.remoteAddr

/-- Second block of `shouldTrackRequest` (lines 471–489): runs only when
`ignorePrefixes` is non-empty; rejects when the client IP fails to parse or
is contained in some configured network. -/
def ipIgnored (O : NetOracles Addr Pfx Re) (h : UmamiFeeder Pfx Re) (req : Request) : Bool :=
  h.ignorePrefixes.length > 0 &&
    (match O.parseAddr (requestIpOf h req) with
     | none => true
     | some ip => h.ignorePrefixes.any (fun p => O.pfxContains p ip))

/-- Third block of `shouldTrackRequest` (lines 491–499): substring match of
each configured pattern against the `User-Agent` header. -/
def userAgentIgnored (h : UmamiFeeder Pfx Re) (req : Request) : Bool :=
  h.ignoreUserAgents.length > 0 &&
    h.ignoreUserAgents.any (fun ua => goContains (req.headerGet "User-Agent") ua)

/-- Fourth block of `shouldTrackRequest` (lines 501–509): any compiled
ignore-URL expression matching `req.URL.String()`. -/
def urlIgnored (O : NetOracles Addr Pfx Re) (h : UmamiFeeder Pfx Re) (req : Request) : Bool :=
  h.ignoreRegexps.length > 0 && h.ignoreRegexps.any (fun r => O.reMatch r req.urlString)

/-- `shouldTrackRequest` (lines 461–512). -/
def shouldTrackRequest (O : NetOracles Addr Pfx Re) (h : UmamiFeeder Pfx Re)
    (req : Request) : Bool :=
  !hostIgnored h req && !ipIgnored O h req && !userAgentIgnored h req && !urlIgnored O h req

/-- Go `path.Ext` on the reversed character list: scanning backwards, stop
at a slash; the extension starts at the last dot of the final element.
`acc` holds the characters already passed, in original order. -/
def pathExtAux : List Char → List Char → String
  | [], _ => ""
  | c :: rest, acc =>
    if c == '/' then ""
    else if c == '.' then ⟨'.' :: acc⟩
    else pathExtAux rest (c :: acc)

/-- Go `path.Ext`. -/
def pathExt (p : String) : String :=
  pathExtAux p.data.reverse []

example : pathExt "/favicon.ico" = ".ico" := by decide
example : pathExt "/about" = "" := by decide
example : pathExt "/a.b/c" = "" := by decide

/-- The built-in "content-like" extension allow-list (lines 553–556). -/
def contentExtensions : List String :=
  ["", ".htm", ".html", ".xhtml", ".jsf", ".md", ".php", ".rss", ".rtf", ".txt", ".xml", ".pdf"]

/-- `shouldTrackResource` (lines 540–559). -/
def shouldTrackResource (h : UmamiFeeder Pfx Re) (url : String) : Bool :=
  if h.trackAllResources then true
  else
    let pExt := pathExt url
    if h.trackExtensions.length > 0 then h.trackExtensions.contains pExt
    else contentExtensions.contains pExt

/-- Assoc-list read of a Go `map[string]string`. -/
def mapFind (m : List (String × String)) (k : String) : Option String :=
  m.lookup k

/-- `shouldTrack` (lines 514–538): request filter, resource filter, then —
unless auto-creation is on — the host must already be resolved. -/
def shouldTrack (O : NetOracles Addr Pfx Re) (h : UmamiFeeder Pfx Re)
    (req : Request) : Bool :=
  if !shouldTrackRequest O h req then false
  else if !shouldTrackResource h req.urlPath then false
  else if h.createNewWebsites then true
  else (mapFind h.websites (parseDomainFromHost req.host)).isSome

/-- `shouldTrackStatus` (lines 561–571). -/
def shouldTrackStatus (h : UmamiFeeder Pfx Re) (statusCode : Int) : Bool :=
  if statusCode ≥ 400 then h.trackErrors else true

/-! ## Event construction and enqueue (`submitToFeed`, umami_worker.go
lines 31–76)

The site-resolution result `websiteId` (the return of `getWebsiteId`) and
the clock reading `now` are passed in explicitly; the bounded queue — a Go
channel of capacity `queueSize` — is a list that the `select`/`default`
statement never grows beyond that capacity. The `h.error` call of each
drop branch is returned as the log message. -/

/-- `extractRemoteIP` (helper file, lines 108–139). `splitHostPort` is the
standard library's `net.SplitHostPort` restricted to the host result
(`none` = error), supplied as an oracle. -/
def extractRemoteIP (splitHostPort : String → Option String) (req : Request) : String :=
  if req.headerGet "Cf-Connecting-Ip" != "" then req.headerGet "Cf-Connecting-Ip"
  else if req.headerGet "X-Vercel-Ip" != "" then req.headerGet "X-Vercel-Ip"
  else if req.headerGet "X-Forwarded-For" != "" then
    goTrimSpace (goSplitFirst (req.headerGet "X-Forwarded-For") ',')
  else if req.headerGet "X-Real-IP" != "" then req.headerGet "X-Real-IP"
  else if req.remoteAddr != "" then
    match splitHostPort req.remoteAddr with
    | some ip => ip
    | none => req.remoteAddr
  else ""

/-- The event record built by `submitToFeed` (lines 40–69) once the site
identifier is known. Go map iteration order over `captureHeaders` is
modelled by the configuration list's order. -/
def buildEvent (splitHostPort : String → Option String) (h : UmamiFeeder Pfx Re)
    (req : Request) (statusCode : Int) (websiteId : String) (now : Int) : UmamiEvent :=
  let captured := h.captureHeaders.filterMap fun hd =>
    let headerValue := req.headerGet hd.1
    if headerValue != "" then some (hd.2, DataVal.str headerValue) else none
  let data :=
    if statusCode ≥ 400 || h.captureHeaders.length > 0 then
      if statusCode ≥ 400 then captured ++ [("status_code", DataVal.int statusCode)]
      else captured
    else []
  { website := websiteId
    hostname := parseDomainFromHost req.host
    language := parseAcceptLanguage (req.headerGet "Accept-Language")
    referrer := req.headerGet "Referer"
    url := req.urlString
    ip := extractRemoteIP splitHostPort req
    userAgent := req.headerGet "User-Agent"
    timestamp := now
    data := data }

/-- `submitToFeed` (lines 31–76): drop (with a log) when the identifier is
unknown; otherwise non-blocking channel send — enqueue when below capacity,
drop (with a log) when full. Returns the new queue and the log message of
the taken drop branch, if any. -/
def submitToFeed (splitHostPort : String → Option String) (h : UmamiFeeder Pfx Re)
    (req : Request) (statusCode : Int) (websiteId : String) (now : Int)
    (queue : List UmamiEvent) : List UmamiEvent × Option String :=
  if websiteId == "" then
    (queue, some ("tracking skipped, websiteId is unknown: " ++ parseDomainFromHost req.host))
  else
    let event := buildEvent splitHostPort h req statusCode websiteId now
    if queue.length < h.queueSize then (queue ++ [event], none)
    else (queue, some "failed to submit event: queue full")

/-! ## Worker restart model (`startWorker` / `umamiEventFeeder`,
umami_worker.go lines 78–96)

`umamiEventFeeder` has an **unnamed** `error` return. Its only `return`
statement is `return nil` (line 109, the `ctx.Done()` branch). When a panic
escapes the loop body, the deferred handler (lines 90–96) calls `recover`,
logs the value — and, the return value being unnamed, cannot set it, so the
recovered call also returns `nil`. -/

/-- How one call of `umamiEventFeeder` can end. -/
inductive FeederEnd where
  | normalReturn
  | panicked (message : String)
deriving DecidableEq, Repr

/-- The `error` value one call of `umamiEventFeeder` returns for each way
of ending (Go semantics of lines 89–96 and 109, see section comment):
always `nil`. -/
def umamiEventFeederErr : FeederEnd → Option String
  | .normalReturn => none
  | .panicked _ => none

/-- What the deferred recovery handler logs (lines 90–96). -/
def umamiEventFeederPanicLog : FeederEnd → Option String
  | .normalReturn => none
  | .panicked message => some ("panic: " ++ message)

/-- The number of calls `startWorker` (lines 78–87) makes to
`umamiEventFeeder`, given how each successive call would end: it loops —
logging "worker failed" — exactly while the previous call returned a
non-nil error, and returns on a nil error. -/
def startWorkerCalls : List FeederEnd → Nat
  | [] => 0
  | e :: rest =>
    1 + (match umamiEventFeederErr e with
         | some _ => startWorkerCalls rest
         | none => 0)

/-! ## Batch dispatcher (`umamiEventFeeder` loop body, umami_worker.go
lines 98–126)

The loop is modelled as a transition system driven by timestamped `select`
deliveries. The state carries the batch (each element with its arrival
time, a ghost annotation), the timer deadline (`timeout` fires at the last
reset time plus `batchMaxWait`), the time of the last processed delivery
(ghost), the flushes performed so far (each flush is one
`reportEventsToUmami` call), and whether the loop has returned.

A trace is *valid* when deliveries are processed in time order, a timer
delivery is processed exactly at the pending deadline, and no other
delivery is processed after the pending deadline (the Go runtime makes the
expired timer's channel ready at the deadline, so in real time a later
delivery is preceded by the timer delivery). -/

/-- One timestamped `select` delivery. -/
inductive FeederEv where
  | ctxDone (t : Nat)
  | arrival (t : Nat) (e : UmamiEvent)
  | timerFire (t : Nat)
deriving DecidableEq, Repr

/-- Timestamp of a delivery. -/
def FeederEv.time : FeederEv → Nat
  | .ctxDone t => t
  | .arrival t _ => t
  | .timerFire t => t

/-- Whether the delivery is the cancellation signal. -/
def FeederEv.isDone : FeederEv → Bool
  | .ctxDone _ => true
  | _ => false

/-- Dispatcher loop state. -/
structure FeederState where
  batch      : List (Nat × SendBody)
  deadline   : Nat
  lastTime   : Nat
  flushes    : List (Nat × List (Nat × SendBody))
  terminated : Bool
deriving DecidableEq, Repr

/-- State at the top of the loop (lines 98–99): empty batch, timer freshly
set to `batchMaxWait` at start time `t0`. -/
def initFeederState (t0 W : Nat) : FeederState :=
  { batch := [], deadline := t0 + W, lastTime := t0, flushes := [], terminated := false }

/-- One iteration of the `select` loop (lines 101–126). `ctxDone`: flush a
non-empty batch once, then return. `arrival`: append; on reaching
`batchSize`, flush and reset the timer. `timerFire`: flush a non-empty
batch; reset the timer either way. -/
def feederStep (batchSize W : Nat) (s : FeederState) (ev : FeederEv) : FeederState :=
  if s.terminated then s
  else
    match ev with
    | .ctxDone t =>
      { s with
        lastTime := t
        terminated := true
        flushes := if s.batch.isEmpty then s.flushes else s.flushes ++ [(t, s.batch)] }
    | .arrival t e =>
      let batch := s.batch ++ [(t, ⟨e, "event"⟩)]
      if batch.length ≥ batchSize then
        { s with
          lastTime := t
          batch := []
          deadline := t + W
          flushes := s.flushes ++ [(t, batch)] }
      else { s with lastTime := t, batch := batch }
    | .timerFire t =>
      if s.batch.isEmpty then { s with lastTime := t, deadline := t + W }
      else
        { s with
          lastTime := t
          batch := []
          deadline := t + W
          flushes := s.flushes ++ [(t, s.batch)] }

/-- Running the loop over a delivery trace. -/
def runFeeder (batchSize W : Nat) (s : FeederState) (tr : List FeederEv) : FeederState :=
  tr.foldl (feederStep batchSize W) s

/-- Admissibility of the next delivery in state `s` (see section comment). -/
def validEv (s : FeederState) (ev : FeederEv) : Bool :=
  decide (s.lastTime ≤ ev.time) &&
    (match ev with
     | .timerFire t => decide (t = s.deadline)
     | _ => decide (ev.time ≤ s.deadline))

/-- Admissibility of a whole delivery trace from state `s`. -/
def validTrace (batchSize W : Nat) : FeederState → List FeederEv → Bool
  | _, [] => true
  | s, ev :: rest => validEv s ev && validTrace batchSize W (feederStep batchSize W s ev) rest

/-- Timing invariant of the dispatcher: the deadline is at most
`batchMaxWait` past the last delivery and not in its past, every buffered
element will meet the deadline within `batchMaxWait` of its arrival, and
every flush performed so far happened within `batchMaxWait` of each of its
elements' arrivals. -/
def FeederInv (W : Nat) (s : FeederState) : Prop :=
  s.lastTime ≤ s.deadline ∧ s.deadline ≤ s.lastTime + W ∧
    (∀ p ∈ s.batch, s.deadline ≤ p.1 + W) ∧
    (∀ f ∈ s.flushes, ∀ p ∈ f.2, f.1 ≤ p.1 + W)

/-! ## Site resolver (`getWebsiteId`, umami_websites.go lines 60–90)

`getWebsiteId` reads the cache under `RLock`; on a miss it takes the write
lock, re-checks (double-checked locking), and only then calls
`createWebsite`, inserting the result under the key the *server* returned
(`website.Domain`). Since `websitesMutex` serializes every access to the
map, the `RLock`-ed read and the whole `Lock`-ed section each execute as
one atomic step; a worker therefore takes at most two steps. The network
result of the `i`-th `createWebsite` call is an oracle value (`none` = the
call failed). -/

/-- Go map assignment `m[k] = v`, modelled on an assoc list read by
`mapFind` (first binding wins, so consing overwrites). -/
def mapInsert (m : List (String × String)) (k v : String) : List (String × String) :=
  (k, v) :: m

/-- Where one `getWebsiteId` worker stands. -/
inductive WorkerPhase where
  | notStarted
  | waitingWrite
  | done (result : String)
deriving DecidableEq, Repr

/-- Shared state of the resolver plus the phase of each worker. -/
structure ResolverSys where
  websites    : List (String × String)
  createCount : Nat
  workers     : List WorkerPhase
deriving DecidableEq, Repr

/-- One atomic step of worker `wid`, all workers resolving `hostname`.
`notStarted → RLock` read (lines 61–67); `waitingWrite → Lock`-ed section
(lines 69–89): double-check, then `createWebsite`, then insert under the
returned domain. A failed create logs and returns `""`. -/
def resolverStep (createResp : Nat → Option Website) (hostname : String)
    (sys : ResolverSys) (wid : Nat) : ResolverSys :=
  match sys.workers.get? wid with
  | none => sys
  | some .notStarted =>
    match mapFind sys.websites hostname with
    | some websiteId => { sys with workers := sys.workers.set wid (.done websiteId) }
    | none => { sys with workers := sys.workers.set wid .waitingWrite }
  | some .waitingWrite =>
    match mapFind sys.websites hostname with
    | some websiteId => { sys with workers := sys.workers.set wid (.done websiteId) }
    | none =>
      match createResp sys.createCount with
      | none =>
        { sys with
          createCount := sys.createCount + 1
          workers := sys.workers.set wid (.done "") }
      | some website =>
        { sys with
          createCount := sys.createCount + 1
          websites := mapInsert sys.websites website.domain website.id
          workers := sys.workers.set wid (.done website.id) }
  | some (.done _) => sys

/-- Interleaved execution of the workers under a schedule (the sequence in
which the lock grants steps). -/
def runResolver (createResp : Nat → Option Website) (hostname : String)
    (sys : ResolverSys) (sched : List Nat) : ResolverSys :=
  sched.foldl (resolverStep createResp hostname) sys

/-! ## Connection/retry state machine (`retryConnection` and
`verifyConfig`, umami_worker.go lines 344–459) -/

/-- The delay computed at the top of each `retryConnection` iteration
(lines 345–353), in seconds: `maxRetryInterval` is `time.Hour`; attempt 0
waits nothing; attempts 1–7 wait `15·2^n` seconds
(`time.Duration(15*math.Pow(2, n)) * time.Second` is exact there). -/
def retryDelaySec (retryAttempt : Nat) : Nat :=
  if retryAttempt = 0 then 0
  else if retryAttempt < 8 then 15 * 2 ^ retryAttempt
  else 3600

/-- How one `select` round of `retryConnection` (lines 359–385) goes:
the wait is cancelled, or the timer fires and `connect` (network login +
site fetch) errs, or `connect` succeeds. -/
inductive AttemptOutcome where
  | cancelled
  | connectErr (e : String)
  | connectOk
deriving DecidableEq, Repr

/-- What the `retryConnection` goroutine left behind. `stopped = false`
means the modelled outcome list ran out while the loop was still
retrying. -/
structure RetryResult where
  isEnabled     : Bool
  workerStarted : Bool
  attemptsMade  : Nat
  stopped       : Bool
deriving DecidableEq, Repr

/-- `retryConnection` (lines 344–387), driven by each round's outcome and
by the fixed result of `verifyConfig` (`none` = verification succeeds; the
config does not change between attempts). On `connectOk` + verified:
enable, start the worker, return. On `connectOk` + config error: log,
disable, return — no further attempt. On `connectErr`: log and loop. On
`cancelled`: return with nothing enabled. -/
def retryConnection (verifyErr : Option String) : List AttemptOutcome → RetryResult
  | [] => ⟨false, false, 0, false⟩
  | o :: rest =>
    match o with
    | .cancelled => ⟨false, false, 0, true⟩
    | .connectErr _ =>
      let r := retryConnection verifyErr rest
      { r with attemptsMade := r.attemptsMade + 1 }
    | .connectOk =>
      match verifyErr with
      | none => ⟨true, true, 1, true⟩
      | some _ => ⟨false, false, 1, true⟩

/-- The `IgnoreIPs` loop of `verifyConfig` (lines 432–445): each entry must
parse as a CIDR, falling back to `entry + "/32"`; the first failure aborts
with an error. `parsePfxOk` is the oracle for "`netip.ParsePrefix` succeeds
and the result `IsValid`". Returns the accepted entries. -/
def verifyIgnoreIPs (parsePfxOk : String → Bool) : List String → Except String (List String)
  | [] => .ok []
  | ignoreIP :: rest =>
    if parsePfxOk ignoreIP || parsePfxOk (ignoreIP ++ "/32") then
      match verifyIgnoreIPs parsePfxOk rest with
      | .ok ps => .ok (ignoreIP :: ps)
      | .error e => .error e
    else .error ("invalid ignoreIP given " ++ ignoreIP)

/-- The `IgnoreURLs` loop of `verifyConfig` (lines 447–456): each entry
must compile as a regular expression (`reCompileOk` oracle); the first
failure aborts with an error. -/
def verifyIgnoreURLs (reCompileOk : String → Bool) : List String → Except String (List String)
  | [] => .ok []
  | location :: rest =>
    if reCompileOk location then
      match verifyIgnoreURLs reCompileOk rest with
      | .ok rs => .ok (location :: rs)
      | .error e => .error e
    else .error ("failed to compile ignoreURL " ++ location)

/-- `verifyConfig` (lines 431–459): validate the IP list, then the URL
list; on success the compiled ignore lists (represented by their accepted
source strings) are installed. -/
def verifyConfig (parsePfxOk reCompileOk : String → Bool)
    (ignoreIPs ignoreURLs : List String) : Except String (List String × List String) :=
  match verifyIgnoreIPs parsePfxOk ignoreIPs with
  | .error e => .error e
  | .ok ps =>
    match verifyIgnoreURLs reCompileOk ignoreURLs with
    | .error e => .error e
    | .ok rs => .ok (ps, rs)

/-- The `err` that `retryConnection` sees from `verifyConfig` (line 368). -/
def verifyConfigErr (parsePfxOk reCompileOk : String → Bool)
    (ignoreIPs ignoreURLs : List String) : Option String :=
  match verifyConfig parsePfxOk reCompileOk ignoreIPs ignoreURLs with
  | .error e => some e
  | .ok _ => none

/-! ## Concrete sample values for evaluation -/

/-- The dispatcher state after running a delivery trace from the loop's
initial state. -/
def feederFinal (batchSize W t0 : Nat) (tr : List FeederEv) : FeederState :=
  runFeeder batchSize W (initFeederState t0 W) tr

/-- A concrete event record. -/
def sampleEvent : UmamiEvent :=
  { website := "site1", hostname := "example.com", language := "", referrer := ""
    url := "http://example.com/about", ip := "10.0.0.7", userAgent := ""
    timestamp := 0, data := [] }

/-- A concrete feeder configuration with a tiny queue and no ignore rules
(compiled pattern types instantiated at `Unit`). -/
def sampleFeeder : UmamiFeeder Unit Unit :=
  { isEnabled := true, queueSize := 2, batchSize := 20, batchMaxWait := 5
    websites := [], createNewWebsites := true, trackErrors := false
    trackAllResources := false, trackExtensions := [], ignoreHosts := []
    ignoreUserAgents := [], ignoreRegexps := [], ignorePrefixes := []
    headerIp := "X-Real-IP", captureHeaders := [] }

/-- A concrete request whose connection-level remote address is not an IP
address. -/
def badIpRequest : Request :=
  { host := "example.com", urlString := "http://example.com/about"
    urlPath := "/about", headers := [], remoteAddr := "not-an-ip" }

/-- Oracles over `Unit` pattern types whose address parser rejects every
string. -/
def failParseOracles : NetOracles Unit Unit Unit :=
  { parseAddr := fun _ => none, pfxContains := fun _ _ => false, reMatch := fun _ _ => false }

/-! ## Theorems -/

/-! ### Retry backoff (C5) -/

/-- The computed delay never exceeds one hour. -/
theorem retryDelaySec_le_hour (n : Nat) : retryDelaySec n ≤ 3600 := by
  unfold retryDelaySec
  split
  next => omega
  next =>
    split
    next h8 =>
      have h2 : 2 ^ n ≤ 2 ^ 7 := Nat.pow_le_pow_right (by omega) (by omega)
      omega
    next => omega

/-- The computed delay is nondecreasing in the attempt counter. -/
theorem retryDelaySec_mono {m n : Nat} (hmn : m ≤ n) :
    retryDelaySec m ≤ retryDelaySec n := by
  by_cases h8 : 8 ≤ n
  · have hn : retryDelaySec n = 3600 := by
      unfold retryDelaySec
      rw [if_neg (by omega), if_neg (by omega)]
    rw [hn]
    exact retryDelaySec_le_hour m
  · have hn8 : n < 8 := by omega
    have hm8 : m < 8 := by omega
    interval_cases m <;> interval_cases n <;> decide

/-- **C5**: the retry delay is 0 seconds on attempt 0, `15·2^n` seconds on
attempts 1–7 (doubling, starting at 30 s), and exactly one hour from
attempt 8 on; it is nondecreasing and never exceeds one hour. -/
theorem claim_C5_retry_delay_schedule :
    retryDelaySec 0 = 0 ∧
    (∀ n, 1 ≤ n → n ≤ 7 → retryDelaySec n = 15 * 2 ^ n) ∧
    (∀ n, 8 ≤ n → retryDelaySec n = 3600) ∧
    (∀ m n, m ≤ n → retryDelaySec m ≤ retryDelaySec n) ∧
    ∀ n, retryDelaySec n ≤ 3600 := by
  refine ⟨rfl, ?_, ?_, fun m n hmn => retryDelaySec_mono hmn,
    fun n => retryDelaySec_le_hour n⟩
  · intro n h1 h7
    unfold retryDelaySec
    rw [if_neg (by omega), if_pos (by omega)]
  · intro n h8
    unfold retryDelaySec
    rw [if_neg (by omega), if_neg (by omega)]

/-- Witness for C5 at attempts 3, 9 and the pair (2, 8). -/
theorem claim_C5_retry_delay_schedule_witness :
    (1 ≤ 3 ∧ 3 ≤ 7 ∧ retryDelaySec 3 = 15 * 2 ^ 3) ∧
    (8 ≤ 9 ∧ retryDelaySec 9 = 3600) ∧
    (2 ≤ 8 ∧ retryDelaySec 2 ≤ retryDelaySec 8) :=
  ⟨⟨by decide, by decide, claim_C5_retry_delay_schedule.2.1 3 (by decide) (by decide)⟩,
   ⟨by decide, claim_C5_retry_delay_schedule.2.2.1 9 (by decide)⟩,
   ⟨by decide, claim_C5_retry_delay_schedule.2.2.2.1 2 8 (by decide)⟩⟩

/-! ### Bounded non-blocking enqueue (C2) -/

/-- **C2**: `submitToFeed`'s enqueue is the non-blocking
`select`/`default`: starting from any queue within capacity the result
stays within capacity, and at capacity the queue is unchanged and the
"queue full" error is logged (when an event was actually built, i.e. the
site identifier was known). -/
theorem claim_C2_enqueue_bounded {Pfx Re : Type} (splitHostPort : String → Option String)
    (h : UmamiFeeder Pfx Re) (req : Request) (statusCode : Int) (websiteId : String)
    (now : Int) (queue : List UmamiEvent)
    (hlen : queue.length ≤ h.queueSize) :
    (submitToFeed splitHostPort h req statusCode websiteId now queue).1.length ≤
        h.queueSize ∧
    (queue.length = h.queueSize →
      (submitToFeed splitHostPort h req statusCode websiteId now queue).1 = queue ∧
      (websiteId ≠ "" →
        (submitToFeed splitHostPort h req statusCode websiteId now queue).2 =
          some "failed to submit event: queue full")) := by
  by_cases hw : websiteId = ""
  · subst hw
    simp [submitToFeed]
    exact hlen
  · by_cases hq : queue.length < h.queueSize
    · simp [submitToFeed, hw, hq]
      omega
    · simp [submitToFeed, hw, hq]
      exact hlen

/-- Witness for C2: a queue already holding `queueSize = 2` events. -/
theorem claim_C2_enqueue_bounded_witness :
    [sampleEvent, sampleEvent].length ≤ sampleFeeder.queueSize ∧
    ((submitToFeed (fun _ => none) sampleFeeder badIpRequest 200 "site1" 0
        [sampleEvent, sampleEvent]).1.length ≤ sampleFeeder.queueSize ∧
      ([sampleEvent, sampleEvent].length = sampleFeeder.queueSize →
        (submitToFeed (fun _ => none) sampleFeeder badIpRequest 200 "site1" 0
          [sampleEvent, sampleEvent]).1 = [sampleEvent, sampleEvent] ∧
        ("site1" ≠ "" →
          (submitToFeed (fun _ => none) sampleFeeder badIpRequest 200 "site1" 0
            [sampleEvent, sampleEvent]).2 = some "failed to submit event: queue full"))) :=
  ⟨by decide,
   claim_C2_enqueue_bounded (fun _ => none) sampleFeeder badIpRequest 200 "site1" 0
     [sampleEvent, sampleEvent] (by decide)⟩

/-! ### No empty site identifier in the queue (C8) -/

/-- **C8**: when resolution yielded the empty identifier, `submitToFeed`
drops the record before the queue (logging the skip); and the queue never
holds an event with an empty `Website` field, since an enqueued event's
`Website` is exactly the non-empty resolved identifier. -/
theorem claim_C8_no_empty_site {Pfx Re : Type} (splitHostPort : String → Option String)
    (h : UmamiFeeder Pfx Re) (req : Request) (statusCode : Int) (websiteId : String)
    (now : Int) (queue : List UmamiEvent)
    (hq : ∀ e ∈ queue, e.website ≠ "") :
    (websiteId = "" →
      (submitToFeed splitHostPort h req statusCode websiteId now queue).1 = queue ∧
      (submitToFeed splitHostPort h req statusCode websiteId now queue).2 =
        some ("tracking skipped, websiteId is unknown: " ++ parseDomainFromHost req.host)) ∧
    ∀ e ∈ (submitToFeed splitHostPort h req statusCode websiteId now queue).1,
      e.website ≠ "" := by
  by_cases hw : websiteId = ""
  · subst hw
    exact ⟨fun _ => ⟨by simp [submitToFeed], by simp [submitToFeed]⟩, by
      simpa [submitToFeed] using hq⟩
  · refine ⟨fun hc => absurd hc hw, ?_⟩
    by_cases hlen : queue.length < h.queueSize
    · simp only [submitToFeed, hw, beq_iff_eq, if_false, hlen, if_true]
      intro e he
      rcases List.mem_append.mp he with h1 | h2
      · exact hq e h1
      · have : e = buildEvent splitHostPort h req statusCode websiteId now := by
          simpa using h2
        subst this
        simpa [buildEvent] using hw
    · simp only [submitToFeed, hw, beq_iff_eq, if_false, hlen, if_true]
      exact hq

/-- Witness for C8: an unknown site identifier drops the record and leaves
the queue's invariant intact. -/
theorem claim_C8_no_empty_site_witness :
    (∀ e ∈ [sampleEvent], e.website ≠ "") ∧
    ((("" : String) = "" →
      (submitToFeed (fun _ => none) sampleFeeder badIpRequest 404 "" 0 [sampleEvent]).1 =
          [sampleEvent] ∧
      (submitToFeed (fun _ => none) sampleFeeder badIpRequest 404 "" 0 [sampleEvent]).2 =
        some ("tracking skipped, websiteId is unknown: " ++
          parseDomainFromHost badIpRequest.host)) ∧
    ∀ e ∈ (submitToFeed (fun _ => none) sampleFeeder badIpRequest 404 "" 0 [sampleEvent]).1,
      e.website ≠ "") :=
  ⟨by decide,
   claim_C8_no_empty_site (fun _ => none) sampleFeeder badIpRequest 404 "" 0 [sampleEvent]
     (by decide)⟩

/-! ### Worker termination on panic (C1) -/

/-- **C1** (code bug): a panic inside one dispatcher iteration is caught
and logged at the loop boundary, but — `umamiEventFeeder`'s `error` return
being unnamed — the recovered call returns `nil`, which `startWorker`
takes as a clean exit: after the panicked call no further call is made
(`startWorkerCalls` stops at 1), and the restart branch is unreachable
since every call returns `nil`. -/
theorem claim_C1_panic_terminates_worker :
    umamiEventFeederPanicLog (FeederEnd.panicked "boom") = some "panic: boom" ∧
    umamiEventFeederErr (FeederEnd.panicked "boom") = none ∧
    startWorkerCalls [FeederEnd.panicked "boom", FeederEnd.normalReturn] = 1 ∧
    ∀ e : FeederEnd, umamiEventFeederErr e = none :=
  ⟨rfl, rfl, rfl, fun e => by cases e <;> rfl⟩

/-! ### Ignored-host check versus host normalisation (C10) -/

theorem goToLower_data (s : String) : (goToLower s).data = s.data.map Char.toLower := rfl

/-- Case-insensitive equality forces equal rune counts. -/
theorem goEqualFold_length {s t : String} (h : goEqualFold s t = true) :
    s.data.length = t.data.length := by
  have heq : goToLower s = goToLower t := by simpa [goEqualFold] using h
  have hd : s.data.map Char.toLower = t.data.map Char.toLower := by
    simpa [goToLower_data] using congrArg String.data heq
  simpa using congrArg List.length hd

/-- A colon placed between two fragments is found by `charsContain`. -/
theorem charsContain_colon (a b : List Char) :
    charsContain (a ++ ':' :: b) [':'] = true := by
  induction a with
  | nil => simp [charsContain, charsStartWith]
  | cons c cs ih => simp [charsContain, ih]

/-- Without a colon in the list, `charsContain` does not find one. -/
theorem charsContain_colon_free {a : List Char} (h : ':' ∉ a) :
    charsContain a [':'] = false := by
  induction a with
  | nil => rfl
  | cons x xs ih =>
    simp only [List.mem_cons, not_or] at h
    have hx : (x == ':') = false := by
      simpa [beq_eq_false_iff_ne] using fun hx => h.1 hx.symm
    simp [charsContain, charsStartWith, hx, ih h.2]

/-- Taking characters up to the first colon of `a ++ ':' :: b` recovers
`a` when `a` is colon-free. -/
theorem takeWhile_until_colon {a : List Char} (h : ':' ∉ a) (b : List Char) :
    (a ++ ':' :: b).takeWhile (fun c => c != ':') = a := by
  induction a with
  | nil => simp [List.takeWhile]
  | cons x xs ih =>
    simp only [List.mem_cons, not_or] at h
    have hx : (x != ':') = true := by
      simpa [bne_iff_ne] using fun hx => h.1 hx.symm
    simp [List.takeWhile, hx, ih h.2]

/-- Character data of the `host:port` concatenation. -/
theorem hostPort_data (host port : String) :
    (host ++ ":" ++ port).data = host.data ++ ':' :: port.data := by
  simp [String.data_append]

/-- `parseDomainFromHost` strips the port: a colon-free host with a port
appended normalises to the same hostname as the bare host. -/
theorem parseDomainFromHost_hostPort (host port : String) (hnc : ':' ∉ host.data) :
    parseDomainFromHost (host ++ ":" ++ port) = parseDomainFromHost host := by
  have hcontains : goContains (host ++ ":" ++ port) ":" = true := by
    unfold goContains
    rw [hostPort_data]
    exact charsContain_colon host.data port.data
  have hfree : goContains host ":" = false := by
    unfold goContains
    exact charsContain_colon_free hnc
  have hsplit : goSplitFirst (host ++ ":" ++ port) ':' = host := by
    unfold goSplitFirst
    rw [hostPort_data, takeWhile_until_colon hnc]
  simp [parseDomainFromHost, hcontains, hfree, hsplit]

/-- **C10**: the ignored-host check compares the raw `req.Host` (which may
keep its port) case-insensitively, without `parseDomainFromHost`'s
port-stripping normalisation; hence a `host:port` value never equals the
bare `host` under folding, an ignore entry equal to the bare host does not
fire for such requests, while site resolution normalises both spellings to
the same hostname. -/
theorem claim_C10_host_check_keeps_port {Pfx Re : Type} (host port : String)
    (hnc : ':' ∉ host.data) :
    goEqualFold (host ++ ":" ++ port) host = false ∧
    (∀ (h : UmamiFeeder Pfx Re) (req : Request),
      req.host = host ++ ":" ++ port → h.ignoreHosts = [host] →
      hostIgnored h req = false) ∧
    parseDomainFromHost (host ++ ":" ++ port) = parseDomainFromHost host := by
  have hfold : goEqualFold (host ++ ":" ++ port) host = false := by
    cases hEq : goEqualFold (host ++ ":" ++ port) host with
    | false => rfl
    | true =>
      have hlen := goEqualFold_length hEq
      rw [hostPort_data] at hlen
      simp at hlen
  refine ⟨hfold, ?_, parseDomainFromHost_hostPort host port hnc⟩
  intro h req hreq hhosts
  simp [hostIgnored, hhosts, hreq, hfold]

/-- Witness for C10 at `Host = "localhost:8080"` against the ignore entry
`"localhost"`. -/
theorem claim_C10_host_check_keeps_port_witness :
    (':' ∉ "localhost".data) ∧
    goEqualFold ("localhost" ++ ":" ++ "8080") "localhost" = false ∧
    parseDomainFromHost ("localhost" ++ ":" ++ "8080") = parseDomainFromHost "localhost" :=
  ⟨by decide,
   (@claim_C10_host_check_keeps_port Unit Unit "localhost" "8080" (by decide)).1,
   (@claim_C10_host_check_keeps_port Unit Unit "localhost" "8080" (by decide)).2.2⟩

/-! ### Unparseable client IP (C9) -/

/-- Counterexample to C9 as stated: with **no** configured ignore-IP
networks the whole IP block of `shouldTrackRequest` is skipped, so a
request whose client-IP string (here the remote address `"not-an-ip"`)
does not parse is still tracked. -/
theorem claim_C9_counterexample :
    failParseOracles.parseAddr (requestIpOf sampleFeeder badIpRequest) = none ∧
    sampleFeeder.ignorePrefixes = [] ∧
    shouldTrack failParseOracles sampleFeeder badIpRequest = true := by decide

/-- **C9** (amended): *when at least one ignore-IP network is configured*,
a request whose client-IP string — configured header, else remote
address — does not parse is not tracked (fail-closed). -/
theorem claim_C9_unparseable_ip_not_tracked {Addr Pfx Re : Type}
    (O : NetOracles Addr Pfx Re) (h : UmamiFeeder Pfx Re) (req : Request)
    (hne : h.ignorePrefixes ≠ [])
    (hparse : O.parseAddr (requestIpOf h req) = none) :
    shouldTrack O h req = false := by
  have hlen : 0 < h.ignorePrefixes.length := List.length_pos.mpr hne
  have hip : ipIgnored O h req = true := by
    unfold ipIgnored
    rw [hparse]
    simpa using hlen
  have hreq : shouldTrackRequest O h req = false := by
    unfold shouldTrackRequest
    simp [hip]
  unfold shouldTrack
  simp [hreq]

/-- Witness for C9 (amended): one configured network, unparseable remote
address, request not tracked. -/
theorem claim_C9_unparseable_ip_not_tracked_witness :
    ({ sampleFeeder with ignorePrefixes := [()] } : UmamiFeeder Unit Unit).ignorePrefixes ≠ [] ∧
    failParseOracles.parseAddr
      (requestIpOf { sampleFeeder with ignorePrefixes := [()] } badIpRequest) = none ∧
    shouldTrack failParseOracles { sampleFeeder with ignorePrefixes := [()] } badIpRequest =
      false :=
  ⟨by decide, by decide,
   claim_C9_unparseable_ip_not_tracked failParseOracles
     { sampleFeeder with ignorePrefixes := [()] } badIpRequest (by decide) (by decide)⟩

/-! ### Permanent disable on configuration-verification failure (C4) -/

/-- An entry that neither parses as a CIDR nor as a single address makes
the IP loop abort with an error. -/
theorem verifyIgnoreIPs_error (parsePfxOk : String → Bool) {ips : List String} {ip : String}
    (hm : ip ∈ ips) (h1 : parsePfxOk ip = false) (h2 : parsePfxOk (ip ++ "/32") = false) :
    ∃ e, verifyIgnoreIPs parsePfxOk ips = .error e := by
  induction ips with
  | nil => cases hm
  | cons x rest ih =>
    rcases List.mem_cons.mp hm with rfl | hm'
    · exact ⟨"invalid ignoreIP given " ++ ip, by simp [verifyIgnoreIPs, h1, h2]⟩
    · unfold verifyIgnoreIPs
      cases hx : parsePfxOk x || parsePfxOk (x ++ "/32")
      · exact ⟨"invalid ignoreIP given " ++ x, by simp⟩
      · obtain ⟨e, he⟩ := ih hm'
        exact ⟨e, by simp [he]⟩

/-- An entry that does not compile makes the URL loop abort with an
error. -/
theorem verifyIgnoreURLs_error (reCompileOk : String → Bool) {urls : List String} {u : String}
    (hm : u ∈ urls) (h1 : reCompileOk u = false) :
    ∃ e, verifyIgnoreURLs reCompileOk urls = .error e := by
  induction urls with
  | nil => cases hm
  | cons x rest ih =>
    rcases List.mem_cons.mp hm with rfl | hm'
    · exact ⟨"failed to compile ignoreURL " ++ u, by simp [verifyIgnoreURLs, h1]⟩
    · unfold verifyIgnoreURLs
      cases hx : reCompileOk x
      · exact ⟨"failed to compile ignoreURL " ++ x, by simp⟩
      · obtain ⟨e, he⟩ := ih hm'
        exact ⟨e, by simp [he]⟩

/-- A bad IP entry or a bad URL pattern makes `verifyConfig` fail. -/
theorem verifyConfigErr_isSome (parsePfxOk reCompileOk : String → Bool)
    {ignoreIPs ignoreURLs : List String}
    (hbad : (∃ ip ∈ ignoreIPs, parsePfxOk ip = false ∧ parsePfxOk (ip ++ "/32") = false) ∨
      ∃ u ∈ ignoreURLs, reCompileOk u = false) :
    ∃ e, verifyConfigErr parsePfxOk reCompileOk ignoreIPs ignoreURLs = some e := by
  unfold verifyConfigErr verifyConfig
  rcases hbad with ⟨ip, hm, h1, h2⟩ | ⟨u, hm, h1⟩
  · obtain ⟨e, he⟩ := verifyIgnoreIPs_error parsePfxOk hm h1 h2
    exact ⟨e, by rw [he]⟩
  · cases hips : verifyIgnoreIPs parsePfxOk ignoreIPs with
    | error e => exact ⟨e, rfl⟩
    | ok ps =>
      obtain ⟨e, he⟩ := verifyIgnoreURLs_error reCompileOk hm h1
      exact ⟨e, by rw [he]⟩

/-- When verification fails, the retry loop — after any run of transient
connect failures — hits its first successful connect, verifies, logs,
disables, and returns; nothing after that attempt is ever examined. -/
theorem retryConnection_verify_error (e : String) (pre post : List AttemptOutcome)
    (hpre : ∀ o ∈ pre, ∃ e', o = AttemptOutcome.connectErr e') :
    retryConnection (some e) (pre ++ AttemptOutcome.connectOk :: post) =
      ⟨false, false, pre.length + 1, true⟩ := by
  induction pre with
  | nil => rfl
  | cons o rest ih =>
    obtain ⟨e', rfl⟩ := hpre o (List.mem_cons_self o rest)
    have ih' := ih fun o' ho' => hpre o' (List.mem_cons_of_mem _ ho')
    simp [retryConnection, ih']

/-- **C4**: an invalid `ignoreIPs` entry or an uncompilable `ignoreURLs`
pattern makes `verifyConfig` fail, and then the first successful connect
ends the retry goroutine with the activation flag false and no worker
started — the pipeline is permanently disabled. -/
theorem claim_C4_verify_failure_disables (parsePfxOk reCompileOk : String → Bool)
    (ignoreIPs ignoreURLs : List String) (pre post : List AttemptOutcome)
    (hbad : (∃ ip ∈ ignoreIPs, parsePfxOk ip = false ∧ parsePfxOk (ip ++ "/32") = false) ∨
      ∃ u ∈ ignoreURLs, reCompileOk u = false)
    (hpre : ∀ o ∈ pre, ∃ e, o = AttemptOutcome.connectErr e) :
    (∃ e, verifyConfigErr parsePfxOk reCompileOk ignoreIPs ignoreURLs = some e) ∧
    retryConnection (verifyConfigErr parsePfxOk reCompileOk ignoreIPs ignoreURLs)
        (pre ++ AttemptOutcome.connectOk :: post) =
      ⟨false, false, pre.length + 1, true⟩ := by
  obtain ⟨e, he⟩ := verifyConfigErr_isSome parsePfxOk reCompileOk hbad
  refine ⟨⟨e, he⟩, ?_⟩
  rw [he]
  exact retryConnection_verify_error e pre post hpre

/-- Witness for C4 at the repository test's invalid entry
`"127.0.0.1-127.0.0.10"`, one transient failure, then a successful
connect; further outcomes are present and ignored. -/
theorem claim_C4_verify_failure_disables_witness :
    (∃ e, verifyConfigErr (fun _ => false) (fun _ => true) ["127.0.0.1-127.0.0.10"] [] =
      some e) ∧
    retryConnection (verifyConfigErr (fun _ => false) (fun _ => true)
        ["127.0.0.1-127.0.0.10"] [])
        ([AttemptOutcome.connectErr "connection refused"] ++
          AttemptOutcome.connectOk :: [AttemptOutcome.cancelled]) =
      ⟨false, false, [AttemptOutcome.connectErr "connection refused"].length + 1, true⟩ :=
  claim_C4_verify_failure_disables (fun _ => false) (fun _ => true)
    ["127.0.0.1-127.0.0.10"] [] [AttemptOutcome.connectErr "connection refused"]
    [AttemptOutcome.cancelled]
    (Or.inl ⟨"127.0.0.1-127.0.0.10", by simp, rfl, rfl⟩)
    (fun o ho => ⟨"connection refused", by simpa using ho⟩)

/-! ### Concurrent site resolution (C3) -/

/-- Invariant of concurrent `getWebsiteId` runs for `w0.domain` when the
first create call would succeed with `w0`: either no create call has been
made, the cache misses the hostname and no worker has finished; or exactly
one create call has been made, the cache maps the hostname to `w0.id`, and
every finished worker obtained `w0.id`. -/
def ResolverWf (w0 : Website) (sys : ResolverSys) : Prop :=
  (sys.createCount = 0 ∧ mapFind sys.websites w0.domain = none ∧
    ∀ wp ∈ sys.workers, wp = WorkerPhase.notStarted ∨ wp = WorkerPhase.waitingWrite) ∨
  (sys.createCount = 1 ∧ mapFind sys.websites w0.domain = some w0.id ∧
    ∀ wp ∈ sys.workers, wp = WorkerPhase.notStarted ∨ wp = WorkerPhase.waitingWrite ∨
      wp = WorkerPhase.done w0.id)

/-- One resolver step preserves the invariant. -/
theorem resolverStep_wf (createResp : Nat → Option Website) (w0 : Website)
    (h0 : createResp 0 = some w0) {sys : ResolverSys} (wid : Nat)
    (hinv : ResolverWf w0 sys) :
    ResolverWf w0 (resolverStep createResp w0.domain sys wid) := by
  unfold resolverStep
  split
  · exact hinv
  · -- notStarted, cache read
    next heq =>
    split
    next websiteId hfind =>
      rcases hinv with ⟨hc, hf, hw⟩ | ⟨hc, hf, hw⟩
      · rw [hf] at hfind; cases hfind
      · refine Or.inr ⟨hc, hf, ?_⟩
        intro wp hwp
        rcases List.mem_or_eq_of_mem_set hwp with hin | rfl
        · exact hw wp hin
        · rw [hf] at hfind
          cases hfind
          exact Or.inr (Or.inr rfl)
    next hfind =>
      rcases hinv with ⟨hc, hf, hw⟩ | ⟨hc, hf, hw⟩
      · refine Or.inl ⟨hc, hf, ?_⟩
        intro wp hwp
        rcases List.mem_or_eq_of_mem_set hwp with hin | rfl
        · exact hw wp hin
        · exact Or.inr rfl
      · rw [hf] at hfind; cases hfind
  · -- waitingWrite, locked section
    next heq =>
    split
    next websiteId hfind =>
      rcases hinv with ⟨hc, hf, hw⟩ | ⟨hc, hf, hw⟩
      · rw [hf] at hfind; cases hfind
      · refine Or.inr ⟨hc, hf, ?_⟩
        intro wp hwp
        rcases List.mem_or_eq_of_mem_set hwp with hin | rfl
        · exact hw wp hin
        · rw [hf] at hfind
          cases hfind
          exact Or.inr (Or.inr rfl)
    next hfind =>
      split
      next hcr =>
        -- createWebsite failed
        rcases hinv with ⟨hc, hf, hw⟩ | ⟨hc, hf, hw⟩
        · rw [hc, h0] at hcr; cases hcr
        · rw [hf] at hfind; cases hfind
      next website hcr =>
        rcases hinv with ⟨hc, hf, hw⟩ | ⟨hc, hf, hw⟩
        · rw [hc, h0] at hcr
          cases hcr
          refine Or.inr ⟨by show sys.createCount + 1 = 1; omega, ?_, ?_⟩
          · simp [mapFind, mapInsert, List.lookup]
          · intro wp hwp
            rcases List.mem_or_eq_of_mem_set hwp with hin | rfl
            · rcases hw wp hin with h1 | h1
              · exact Or.inl h1
              · exact Or.inr (Or.inl h1)
            · exact Or.inr (Or.inr rfl)
        · rw [hf] at hfind; cases hfind
  · exact hinv

/-- The invariant is preserved along any schedule. -/
theorem runResolver_wf (createResp : Nat → Option Website) (w0 : Website)
    (h0 : createResp 0 = some w0) (sys : ResolverSys) (sched : List Nat)
    (hinv : ResolverWf w0 sys) :
    ResolverWf w0 (runResolver createResp w0.domain sys sched) := by
  induction sched generalizing sys with
  | nil => exact hinv
  | cons wid rest ih => exact ih _ (resolverStep_wf createResp w0 h0 wid hinv)

/-- Counterexample to C3 as stated: two workers resolving
`"example.com"` concurrently with an initially empty cache; the first
create call fails, the second succeeds. Two create calls are performed and
the two invocations return different identifiers (`""` and `"id2"`). -/
theorem claim_C3_counterexample :
    (runResolver
        (fun i => if i = 0 then none else some ⟨"id2", "example.com", "", "example.com"⟩)
        "example.com" ⟨[], 0, [WorkerPhase.notStarted, WorkerPhase.notStarted]⟩
        [0, 1, 0, 1]).createCount = 2 ∧
    (runResolver
        (fun i => if i = 0 then none else some ⟨"id2", "example.com", "", "example.com"⟩)
        "example.com" ⟨[], 0, [WorkerPhase.notStarted, WorkerPhase.notStarted]⟩
        [0, 1, 0, 1]).workers =
      [WorkerPhase.done "", WorkerPhase.done "id2"] := by decide

/-- **C3** (amended): for any number of workers and any interleaving,
*provided the create call for the hostname succeeds and returns a site
whose domain is that hostname*, at most one create call is performed and
every invocation that completes returns that site's identifier. (When a
create call fails, that invocation returns `""` and a later invocation may
retry the create — see the counterexample.) -/
theorem claim_C3_single_create (createResp : Nat → Option Website) (hostname : String)
    (w0 : Website) (N : Nat) (sched : List Nat)
    (h0 : createResp 0 = some w0) (hdom : w0.domain = hostname) :
    (runResolver createResp hostname
        ⟨[], 0, List.replicate N WorkerPhase.notStarted⟩ sched).createCount ≤ 1 ∧
    ∀ wp ∈ (runResolver createResp hostname
        ⟨[], 0, List.replicate N WorkerPhase.notStarted⟩ sched).workers,
      ∀ r, wp = WorkerPhase.done r → r = w0.id := by
  subst hdom
  have hwf := runResolver_wf createResp w0 h0
    ⟨[], 0, List.replicate N WorkerPhase.notStarted⟩ sched
    (Or.inl ⟨rfl, rfl, fun wp hwp => Or.inl (List.eq_of_mem_replicate hwp)⟩)
  rcases hwf with ⟨hc, _, hw⟩ | ⟨hc, _, hw⟩
  · refine ⟨by omega, ?_⟩
    intro wp hwp r hr
    rcases hw wp hwp with h1 | h1 <;> rw [hr] at h1 <;> cases h1
  · refine ⟨by omega, ?_⟩
    intro wp hwp r hr
    rcases hw wp hwp with h1 | h1 | h1
    · rw [hr] at h1; cases h1
    · rw [hr] at h1; cases h1
    · rw [hr] at h1
      injection h1

/-- Witness for C3 (amended): two workers, interleaved read steps then
locked sections, a create call that succeeds with the requested domain. -/
theorem claim_C3_single_create_witness :
    ((fun _ => some (⟨"id1", "example.com", "", "example.com"⟩ : Website)) 0 =
      some (⟨"id1", "example.com", "", "example.com"⟩ : Website)) ∧
    (runResolver (fun _ => some ⟨"id1", "example.com", "", "example.com"⟩)
        "example.com" ⟨[], 0, List.replicate 2 WorkerPhase.notStarted⟩
        [0, 1, 0, 1]).createCount ≤ 1 ∧
    ∀ wp ∈ (runResolver (fun _ => some ⟨"id1", "example.com", "", "example.com"⟩)
        "example.com" ⟨[], 0, List.replicate 2 WorkerPhase.notStarted⟩
        [0, 1, 0, 1]).workers,
      ∀ r, wp = WorkerPhase.done r → r = ("id1" : String) :=
  ⟨rfl,
   (claim_C3_single_create (fun _ => some ⟨"id1", "example.com", "", "example.com"⟩)
     "example.com" ⟨"id1", "example.com", "", "example.com"⟩ 2 [0, 1, 0, 1] rfl rfl).1,
   (claim_C3_single_create (fun _ => some ⟨"id1", "example.com", "", "example.com"⟩)
     "example.com" ⟨"id1", "example.com", "", "example.com"⟩ 2 [0, 1, 0, 1] rfl rfl).2⟩

/-! ### Dispatcher timing (C6) and final flush on cancellation (C7) -/

/-- The timing invariant holds at the top of the loop. -/
theorem feederInv_init (t0 W : Nat) : FeederInv W (initFeederState t0 W) := by
  refine ⟨?_, ?_, ?_, ?_⟩
  · show t0 ≤ t0 + W
    omega
  · show t0 + W ≤ t0 + W
    omega
  · intro p hp
    cases hp
  · intro f hf
    cases hf

/-- One admissible delivery preserves the timing invariant. -/
theorem feederInv_step {batchSize W : Nat} {s : FeederState} {ev : FeederEv}
    (hv : validEv s ev = true) (hinv : FeederInv W s) :
    FeederInv W (feederStep batchSize W s ev) := by
  unfold FeederInv at hinv ⊢
  obtain ⟨batch, deadline, lastTime, flushes, terminated⟩ := s
  obtain ⟨h1, h2, h3, h4⟩ := hinv
  simp only at h1 h2 h3 h4
  cases terminated with
  | true => exact ⟨h1, h2, h3, h4⟩
  | false =>
    cases ev with
    | ctxDone t =>
      simp only [validEv, Bool.and_eq_true, decide_eq_true_eq, FeederEv.time] at hv
      obtain ⟨hv1, hv2⟩ := hv
      refine ⟨?_, ?_, ?_, ?_⟩
      · show t ≤ deadline
        exact hv2
      · show deadline ≤ t + W
        omega
      · show ∀ p ∈ batch, deadline ≤ p.1 + W
        exact h3
      · show ∀ f ∈ (if batch.isEmpty then flushes else flushes ++ [(t, batch)]),
          ∀ p ∈ f.2, f.1 ≤ p.1 + W
        split
        · exact h4
        · intro f hf
          rcases List.mem_append.mp hf with hold | hnew
          · exact h4 f hold
          · rw [List.mem_singleton.mp hnew]
            intro p hp
            have hp3 := h3 p hp
            show t ≤ p.1 + W
            omega
    | arrival t e =>
      simp only [validEv, Bool.and_eq_true, decide_eq_true_eq, FeederEv.time] at hv
      obtain ⟨hv1, hv2⟩ := hv
      by_cases hlen : (batch ++ [(t, (⟨e, "event"⟩ : SendBody))]).length ≥ batchSize
      · have hstep : feederStep batchSize W ⟨batch, deadline, lastTime, flushes, false⟩
            (FeederEv.arrival t e) =
            ⟨[], t + W, t, flushes ++ [(t, batch ++ [(t, ⟨e, "event"⟩)])], false⟩ := by
          unfold feederStep
          simp [show batchSize ≤ batch.length + 1 from by simpa using hlen]
        rw [hstep]
        refine ⟨?_, ?_, ?_, ?_⟩
        · show t ≤ t + W
          omega
        · show t + W ≤ t + W
          omega
        · intro p hp
          cases hp
        · intro f hf
          rcases List.mem_append.mp hf with hold | hnew
          · exact h4 f hold
          · rw [List.mem_singleton.mp hnew]
            intro p hp
            rcases List.mem_append.mp hp with hb | hsing
            · have hp3 := h3 p hb
              show t ≤ p.1 + W
              omega
            · rw [List.mem_singleton.mp hsing]
              show t ≤ t + W
              omega
      · have hstep : feederStep batchSize W ⟨batch, deadline, lastTime, flushes, false⟩
            (FeederEv.arrival t e) =
            ⟨batch ++ [(t, ⟨e, "event"⟩)], deadline, t, flushes, false⟩ := by
          unfold feederStep
          simp [show ¬ batchSize ≤ batch.length + 1 from by simpa using hlen]
        rw [hstep]
        refine ⟨?_, ?_, ?_, ?_⟩
        · show t ≤ deadline
          exact hv2
        · show deadline ≤ t + W
          omega
        · intro p hp
          rcases List.mem_append.mp hp with hb | hsing
          · exact h3 p hb
          · rw [List.mem_singleton.mp hsing]
            show deadline ≤ t + W
            omega
        · exact h4
    | timerFire t =>
      simp only [validEv, Bool.and_eq_true, decide_eq_true_eq, FeederEv.time] at hv
      obtain ⟨hv1, hv2⟩ := hv
      by_cases hempty : batch.isEmpty = true
      · have hstep : feederStep batchSize W ⟨batch, deadline, lastTime, flushes, false⟩
            (FeederEv.timerFire t) = ⟨batch, t + W, t, flushes, false⟩ := by
          unfold feederStep
          simp [hempty]
        rw [hstep]
        refine ⟨?_, ?_, ?_, ?_⟩
        · show t ≤ t + W
          omega
        · show t + W ≤ t + W
          omega
        · intro p hp
          rw [List.isEmpty_iff.mp hempty] at hp
          cases hp
        · exact h4
      · have hstep : feederStep batchSize W ⟨batch, deadline, lastTime, flushes, false⟩
            (FeederEv.timerFire t) = ⟨[], t + W, t, flushes ++ [(t, batch)], false⟩ := by
          unfold feederStep
          simp [hempty]
        rw [hstep]
        refine ⟨?_, ?_, ?_, ?_⟩
        · show t ≤ t + W
          omega
        · show t + W ≤ t + W
          omega
        · intro p hp
          cases hp
        · intro f hf
          rcases List.mem_append.mp hf with hold | hnew
          · exact h4 f hold
          · rw [List.mem_singleton.mp hnew]
            intro p hp
            have hp3 := h3 p hp
            show t ≤ p.1 + W
            omega

/-- The timing invariant is preserved along any admissible trace. -/
theorem feederInv_run {batchSize W : Nat} (s : FeederState) (tr : List FeederEv)
    (hv : validTrace batchSize W s tr = true) (hinv : FeederInv W s) :
    FeederInv W (runFeeder batchSize W s tr) := by
  induction tr generalizing s with
  | nil => exact hinv
  | cons ev rest ih =>
    rw [validTrace, Bool.and_eq_true] at hv
    exact ih _ hv.2 (feederInv_step hv.1 hinv)

/-- Trace admissibility splits over an appended final delivery. -/
theorem validTrace_append_one {batchSize W : Nat} (s : FeederState) (tr : List FeederEv)
    (ev : FeederEv) :
    validTrace batchSize W s (tr ++ [ev]) =
      (validTrace batchSize W s tr && validEv (runFeeder batchSize W s tr) ev) := by
  induction tr generalizing s with
  | nil => simp [validTrace, runFeeder]
  | cons e rest ih =>
    rw [List.cons_append, validTrace, validTrace, ih, Bool.and_assoc]
    rfl

/-- Running one more delivery is one more step. -/
theorem runFeeder_append_one {batchSize W : Nat} (s : FeederState) (tr : List FeederEv)
    (ev : FeederEv) :
    runFeeder batchSize W s (tr ++ [ev]) = feederStep batchSize W (runFeeder batchSize W s tr) ev := by
  unfold runFeeder
  rw [List.foldl_append]
  rfl

/-- A non-cancellation delivery never terminates the loop. -/
theorem feederStep_not_done_keeps_running {batchSize W : Nat} (s : FeederState)
    (ev : FeederEv) (hs : s.terminated = false) (hev : ev.isDone = false) :
    (feederStep batchSize W s ev).terminated = false := by
  obtain ⟨batch, dl, lt, fl, term⟩ := s
  simp only at hs
  subst hs
  cases ev with
  | ctxDone t => simp [FeederEv.isDone] at hev
  | arrival t e =>
    by_cases hlen : batchSize ≤ batch.length + 1
    · simp [feederStep, hlen]
    · simp [feederStep, hlen]
  | timerFire t =>
    by_cases hb : batch.isEmpty = true
    · simp [feederStep, hb]
    · simp [feederStep, hb]

/-- The timer delivery flushes a non-empty batch (and only then). -/
theorem feederStep_timerFire_flushes {batchSize W : Nat} (s : FeederState)
    (hterm : s.terminated = false) (t : Nat) :
    (feederStep batchSize W s (FeederEv.timerFire t)).flushes =
      (if s.batch.isEmpty then s.flushes else s.flushes ++ [(t, s.batch)]) := by
  obtain ⟨batch, dl, lt, fl, term⟩ := s
  simp only at hterm
  subst hterm
  by_cases hb : batch.isEmpty = true
  · simp [feederStep, hb]
  · simp [feederStep, hb]

/-- **C6**: over any admissible delivery trace, every flush performed so
far happened within `batchMaxWait` of each flushed element's arrival;
every element still buffered will meet the pending deadline within
`batchMaxWait` of its arrival; and while the loop is running, the pending
timer delivery alone — no further arrivals — is admissible and flushes the
whole non-empty batch at that deadline. -/
theorem claim_C6_flush_within_wait (batchSize W t0 : Nat) (tr : List FeederEv)
    (hv : validTrace batchSize W (initFeederState t0 W) tr = true) :
    (∀ f ∈ (feederFinal batchSize W t0 tr).flushes, ∀ p ∈ f.2, f.1 ≤ p.1 + W) ∧
    (∀ p ∈ (feederFinal batchSize W t0 tr).batch,
      (feederFinal batchSize W t0 tr).deadline ≤ p.1 + W) ∧
    ((feederFinal batchSize W t0 tr).terminated = false →
      validTrace batchSize W (initFeederState t0 W)
          (tr ++ [FeederEv.timerFire (feederFinal batchSize W t0 tr).deadline]) = true ∧
      (feederFinal batchSize W t0
          (tr ++ [FeederEv.timerFire (feederFinal batchSize W t0 tr).deadline])).flushes =
        (if (feederFinal batchSize W t0 tr).batch.isEmpty then
          (feederFinal batchSize W t0 tr).flushes
         else
          (feederFinal batchSize W t0 tr).flushes ++
            [((feederFinal batchSize W t0 tr).deadline,
              (feederFinal batchSize W t0 tr).batch)])) := by
  have hinv := feederInv_run (initFeederState t0 W) tr hv (feederInv_init t0 W)
  unfold FeederInv at hinv
  obtain ⟨k1, k2, k3, k4⟩ := hinv
  refine ⟨k4, k3, ?_⟩
  intro hterm
  have hvext : validEv (runFeeder batchSize W (initFeederState t0 W) tr)
      (FeederEv.timerFire (feederFinal batchSize W t0 tr).deadline) = true := by
    unfold validEv feederFinal
    simp only [FeederEv.time, Bool.and_eq_true, decide_eq_true_eq]
    exact ⟨k1, trivial⟩
  constructor
  · rw [validTrace_append_one, hv, hvext]
    rfl
  · have hone : feederFinal batchSize W t0
        (tr ++ [FeederEv.timerFire (feederFinal batchSize W t0 tr).deadline]) =
        feederStep batchSize W (feederFinal batchSize W t0 tr)
          (FeederEv.timerFire (feederFinal batchSize W t0 tr).deadline) := by
      unfold feederFinal
      exact runFeeder_append_one _ _ _
    rw [hone, feederStep_timerFire_flushes _ hterm]

/-- Witness for C6: batch size 20, `batchMaxWait` 5, one arrival at time 2;
the timer delivery at the pending deadline 7 flushes it, within 5 of the
arrival. -/
theorem claim_C6_flush_within_wait_witness :
    validTrace 20 5 (initFeederState 0 5) [FeederEv.arrival 2 sampleEvent] = true ∧
    ((∀ f ∈ (feederFinal 20 5 0 [FeederEv.arrival 2 sampleEvent]).flushes,
        ∀ p ∈ f.2, f.1 ≤ p.1 + 5) ∧
      (∀ p ∈ (feederFinal 20 5 0 [FeederEv.arrival 2 sampleEvent]).batch,
        (feederFinal 20 5 0 [FeederEv.arrival 2 sampleEvent]).deadline ≤ p.1 + 5) ∧
      ((feederFinal 20 5 0 [FeederEv.arrival 2 sampleEvent]).terminated = false →
        validTrace 20 5 (initFeederState 0 5)
            ([FeederEv.arrival 2 sampleEvent] ++
              [FeederEv.timerFire
                (feederFinal 20 5 0 [FeederEv.arrival 2 sampleEvent]).deadline]) = true ∧
        (feederFinal 20 5 0
            ([FeederEv.arrival 2 sampleEvent] ++
              [FeederEv.timerFire
                (feederFinal 20 5 0 [FeederEv.arrival 2 sampleEvent]).deadline])).flushes =
          (if (feederFinal 20 5 0 [FeederEv.arrival 2 sampleEvent]).batch.isEmpty then
            (feederFinal 20 5 0 [FeederEv.arrival 2 sampleEvent]).flushes
           else
            (feederFinal 20 5 0 [FeederEv.arrival 2 sampleEvent]).flushes ++
              [((feederFinal 20 5 0 [FeederEv.arrival 2 sampleEvent]).deadline,
                (feederFinal 20 5 0 [FeederEv.arrival 2 sampleEvent]).batch)]))) :=
  ⟨by decide, claim_C6_flush_within_wait 20 5 0 [FeederEv.arrival 2 sampleEvent] (by decide)⟩

/-- **C7**: the cancellation delivery is the dispatcher's sole terminal
transition — a trace without it leaves the loop running, and processing it
from a running state terminates the loop after exactly one final flush
containing exactly the pending batch (no flush when the batch is empty). -/
theorem claim_C7_cancellation_final_flush (batchSize W : Nat) :
    (∀ (s : FeederState) (tr : List FeederEv), s.terminated = false →
      (∀ ev ∈ tr, ev.isDone = false) →
      (runFeeder batchSize W s tr).terminated = false) ∧
    (∀ (s : FeederState) (t : Nat), s.terminated = false →
      (feederStep batchSize W s (FeederEv.ctxDone t)).terminated = true ∧
      (feederStep batchSize W s (FeederEv.ctxDone t)).flushes =
        (if s.batch.isEmpty then s.flushes else s.flushes ++ [(t, s.batch)]) ∧
      (feederStep batchSize W s (FeederEv.ctxDone t)).batch = s.batch) := by
  constructor
  · intro s tr
    induction tr generalizing s with
    | nil => exact fun h _ => h
    | cons ev rest ih =>
      intro hs hall
      exact ih _
        (feederStep_not_done_keeps_running s ev hs (hall ev (List.mem_cons_self ev rest)))
        (fun ev' hev' => hall ev' (List.mem_cons_of_mem _ hev'))
  · intro s t hs
    obtain ⟨batch, dl, lt, fl, term⟩ := s
    simp only at hs
    subst hs
    exact ⟨rfl, rfl, rfl⟩

/-- Witness for C7: after one arrival the loop is still running; the
cancellation delivery at time 3 terminates it with one final flush of the
single-element batch. -/
theorem claim_C7_cancellation_final_flush_witness :
    (feederFinal 20 5 0 [FeederEv.arrival 2 sampleEvent]).terminated = false ∧
    ((feederStep 20 5 (feederFinal 20 5 0 [FeederEv.arrival 2 sampleEvent])
        (FeederEv.ctxDone 3)).terminated = true ∧
      (feederStep 20 5 (feederFinal 20 5 0 [FeederEv.arrival 2 sampleEvent])
          (FeederEv.ctxDone 3)).flushes =
        (if (feederFinal 20 5 0 [FeederEv.arrival 2 sampleEvent]).batch.isEmpty then
          (feederFinal 20 5 0 [FeederEv.arrival 2 sampleEvent]).flushes
         else
          (feederFinal 20 5 0 [FeederEv.arrival 2 sampleEvent]).flushes ++
            [(3, (feederFinal 20 5 0 [FeederEv.arrival 2 sampleEvent]).batch)]) ∧
      (feederStep 20 5 (feederFinal 20 5 0 [FeederEv.arrival 2 sampleEvent])
          (FeederEv.ctxDone 3)).batch =
        (feederFinal 20 5 0 [FeederEv.arrival 2 sampleEvent]).batch) :=
  ⟨by decide,
   (claim_C7_cancellation_final_flush 20 5).2
     (feederFinal 20 5 0 [FeederEv.arrival 2 sampleEvent]) 3 (by decide)⟩

end TraefikUmamiFeeder
